import Mathlib

/-!
Verification of the arXiv data-source resolution and entry-extraction
subsystem (`openscience/arxiv/_core.py`, `openscience/arxiv/_fsutil.py`).

The Python code is shallowly embedded: string-processing helpers mirror the
Python library functions the code calls (`str.split`, `int`, `posixpath`
operations, `os.path.splitext`, glob pattern matching for a literal pattern
`{id}.*`), manifest resolution becomes a pure function into `Except`, and the
filesystem side effects of the shard lifecycle become explicit state passing
over a small filesystem state record.  Exceptions raised by the Python code
become error values; distinct exception classes and distinct messages become
distinct constructors.
-/

/-- Error values standing for the exceptions that can escape the embedded
code paths.  Distinct Python exception classes (and, for `ValueError` and
`RuntimeError`, distinct message families) get distinct constructors. -/
inductive PyError where
  /-- The exception `ArxivUnsupportedEntryID` -/
  | arxivUnsupportedEntryID
  /-- The exception `ArxivEntryNotFound` -/
  | arxivEntryNotFound
  /-- An `IndexError` from `entry_id.split(".")[1]` (unreachable after the regex check) -/
  | indexError
  /-- A `ValueError` from `int(entry_id.split(".")[1])` on a non-numeric piece -/
  | valueErrorIntParse
  /-- The error `ValueError("Entry ... does not exist in data source.")` -/
  | valueErrorEntryMissing
  /-- The error `RuntimeError("Found multiple entries with ID ...")` -/
  | runtimeAmbiguousEntry
  /-- The error `RuntimeError("Unknown file extension ...")` -/
  | runtimeUnknownFormat
  /-- The error `RuntimeError("Tarball ... has not been unpacked. ...")` -/
  | runtimeNotUnpacked
  /-- The error `RuntimeError("Failed to unpack tarball ...")` raised by `unpack_tar` -/
  | runtimeExtractionFailed
  /-- A `FileNotFoundError` from `shutil.rmtree` on a missing directory -/
  | fileNotFoundError
deriving DecidableEq, Repr

/-! ## Python string helpers -/

/-- Python `s.split(c)` for a single-character separator: splits on every
occurrence, keeping empty pieces (`"".split(".") == [""]`). -/
def splitOnChar (c : Char) : List Char → List (List Char)
  | [] => [[]]
  | x :: xs =>
    if x = c then [] :: splitOnChar c xs
    else
      match splitOnChar c xs with
      | h :: t => (x :: h) :: t
      | [] => [[x]]

/-- Numeric value of a list of ASCII digit characters, most significant
first, as `int` computes it (leading zeros allowed). -/
def digitsVal (l : List Char) : Nat :=
  l.foldl (fun acc c => acc * 10 + (c.toNat - 48)) 0

/-- Python `int(s)` on a string given as a character list: strips surrounding
whitespace, allows one optional sign, then requires a nonempty run of ASCII
digits.  (Unicode digits and `_` group separators are not modelled; none of
the strings this development evaluates use them.)  `none` stands for the
`ValueError` that `int` raises otherwise. -/
def pyIntChars (l : List Char) : Option Int :=
  let t := ((l.dropWhile Char.isWhitespace).reverse.dropWhile Char.isWhitespace).reverse
  match t with
  | [] => none
  | c :: ds =>
    if c = '+' then
      if ds ≠ [] ∧ ds.all Char.isDigit then some (digitsVal ds) else none
    else if c = '-' then
      if ds ≠ [] ∧ ds.all Char.isDigit then some (-(digitsVal ds : Int)) else none
    else if (c :: ds).all Char.isDigit then some (digitsVal (c :: ds)) else none

/-- Whether `re.match(r"\d{4}\.\d{5}", s)` succeeds: a match anchored at the
START of the string only — four ASCII digits, a dot, five ASCII digits, and
then anything at all may follow. -/
def reMatchEntryID : List Char → Bool
  | a :: b :: c :: d :: dot :: e :: f :: g :: h :: i :: _ =>
    a.isDigit && b.isDigit && c.isDigit && d.isDigit && dot == '.' &&
    e.isDigit && f.isDigit && g.isDigit && h.isDigit && i.isDigit
  | _ => false

/-- Modelled from the spec: the identifier format contract "exactly
`\d{4}\.\d{5}`" — a FULL match, i.e. the whole string is four ASCII digits,
a dot, and five ASCII digits.  This is the spec's wording, kept separate so
it can be compared with what the code (`reMatchEntryID`, a prefix match)
actually checks. -/
def specFullMatchEntryID : List Char → Bool
  | [a, b, c, d, dot, e, f, g, h, i] =>
    a.isDigit && b.isDigit && c.isDigit && d.isDigit && dot == '.' &&
    e.isDigit && f.isDigit && g.isDigit && h.isDigit && i.isDigit
  | _ => false

/-! ## posixpath helpers -/

/-- Index of the last occurrence of `c` in `l`, if any (Python `s.rfind(c)`,
with `none` for `-1`). -/
def rfindChar (c : Char) (l : List Char) : Option Nat :=
  (l.reverse.findIdx? (· == c)).map (fun k => l.length - 1 - k)

/-- Python `posixpath.dirname`: everything before the last `/`, with trailing
slashes stripped unless the result is all slashes; `""` when there is no
slash. -/
def dirname (p : String) : String :=
  match rfindChar '/' p.data with
  | none => ""
  | some i =>
    let head := p.data.take (i + 1)
    if head.all (· == '/') then ⟨head⟩
    else ⟨(head.reverse.dropWhile (· == '/')).reverse⟩

/-- Python `posixpath.basename`: everything after the last `/`. -/
def basename (p : String) : String :=
  match rfindChar '/' p.data with
  | none => p
  | some i => ⟨p.data.drop (i + 1)⟩

/-- Python `posixpath.join(a, b)` for the two-argument case. -/
def posixJoin (a b : String) : String :=
  if b.data.head? = some '/' then b
  else if a = "" then b
  else if a.data.getLast? = some '/' then a ++ b
  else a ++ "/" ++ b

/-- Python `posixpath.splitext`: splits at the last dot, provided that dot
lies inside the basename and is preceded there by at least one non-dot
character (so leading dots of the basename never start an extension). -/
def splitext (p : String) : String × String :=
  let si : Nat := match rfindChar '/' p.data with | none => 0 | some i => i + 1
  match rfindChar '.' p.data with
  | none => (p, "")
  | some di =>
    if si ≤ di ∧ ((p.data.take di).drop si).any (· ≠ '.') then
      (⟨p.data.take di⟩, ⟨p.data.drop di⟩)
    else (p, "")

/-! ## Manifest data model (`_ManifestEntry`, `_ArxivDataSourceManifest`) -/

/-- One row of the arXiv manifest XML document (`_ManifestEntry`). -/
structure _ManifestEntry where
  num_items : Int
  yymm : String
  seq_num : Int
  first_item : String
  last_item : String
deriving DecidableEq, Repr

/-- Python format-string rendering with the 03d format spec: decimal
rendering zero-padded to total width 3, the sign included in the width. -/
def format03d (n : Int) : String :=
  let pad : Nat → String → String := fun w s =>
    if s.length < w then ⟨List.replicate (w - s.length) '0'⟩ ++ s else s
  if n < 0 then "-" ++ pad 2 (Nat.repr n.natAbs) else pad 3 (Nat.repr n.natAbs)

/-- The property `_ManifestEntry.filename`: the format string interpolating
the row fields into `arXiv_src_YYMM_SSS.tar`, with `seq_num` zero-padded to
three digits. -/
def _ManifestEntry.filename (e : _ManifestEntry) : String :=
  "arXiv_src_" ++ e.yymm ++ "_" ++ format03d e.seq_num ++ ".tar"

/-- The manifest index (`_ArxivDataSourceManifest`): the path of the XML
document it was parsed from, and the document's rows in document order.
(The constructor's grouping into a dict of per-month lists is recovered by
`monthEntries` below; XML parsing itself is outside the model.) -/
structure _ArxivDataSourceManifest where
  manifest_xml_path : String
  files : List _ManifestEntry
deriving DecidableEq, Repr

/-- The list `self._entries.get(yymm, [])`: the document's rows for the month
`yymm`, in document order, then sorted by `seq_num`.  The constructor groups
rows by `yymm` preserving document order inside each group (which is exactly
`filter`) and then applies Python's stable `list.sort`; `insertionSort` with
the non-strict key order is likewise stable, so the resulting lists agree. -/
def monthEntries (m : _ArxivDataSourceManifest) (yymm : String) : List _ManifestEntry :=
  (m.files.filter (fun e => e.yymm == yymm)).insertionSort
    (fun a b => a.seq_num ≤ b.seq_num)

/-- The `try: int(entry.first_item.split(".")[1]) ... except:` pattern of the
range scan: `none` when the piece after the first dot is missing
(`IndexError`) or not an `int` literal (`ValueError`); the bare `except`
catches both. -/
def parseItemNum (s : String) : Option Int :=
  match splitOnChar '.' s.data with
  | _ :: second :: _ => pyIntChars second
  | _ => none

/-- The `for entry in manifest_entries` loop of
`get_tarball_path_for_entry`: parse each row's bounds (failing with
`ArxivUnsupportedEntryID` on a malformed row), return the joined path of the
first row whose inclusive range contains `num`, and fall through to
`ArxivEntryNotFound`. -/
def scanEntries (num : Int) (dir : String) : List _ManifestEntry → Except PyError String
  | [] => .error .arxivEntryNotFound
  | e :: rest =>
    match parseItemNum e.first_item, parseItemNum e.last_item with
    | some first_item, some last_item =>
      if first_item ≤ num ∧ num ≤ last_item then .ok (posixJoin dir e.filename)
      else scanEntries num dir rest
    | _, _ => .error .arxivUnsupportedEntryID

/-- The method `_ArxivDataSourceManifest.get_tarball_path_for_entry`: validate the
identifier with `re.match(r"\d{4}\.\d{5}", ...)` (a prefix match), split it
at dots into `yymm` and `num`, look the month up in the index, and scan that
month's rows for the first range containing `num`. -/
def get_tarball_path_for_entry (m : _ArxivDataSourceManifest) (entry_id : String) :
    Except PyError String :=
  if reMatchEntryID entry_id.data = false then .error .arxivUnsupportedEntryID
  else
    let pieces := splitOnChar '.' entry_id.data
    match pieces[1]? with
    | none => .error .indexError
    | some second =>
      match pyIntChars second with
      | none => .error .valueErrorIntParse
      | some num =>
        let yymm : String := ⟨pieces.headD []⟩
        let manifest_entries := monthEntries m yymm
        if manifest_entries.isEmpty then .error .arxivEntryNotFound
        else scanEntries num (dirname m.manifest_xml_path) manifest_entries

/-! ## Entries and shards (`BaseArxivEntry`, `GzipArxivEntry`, `_ArxivTarball`) -/

/-- The constant `TMP_DIR = "/tmp/arxiv"`, the fixed temporary extraction root. -/
def TMP_DIR : String := "/tmp/arxiv"

/-- An arXiv entry as returned to callers.  The only variant the code
constructs is `GzipArxivEntry(id, path)`; its eager decompression of the
`.gz` member and the text it reads back depend on bytes outside the model
and are not tracked. -/
inductive BaseArxivEntry where
  | gzip (id : String) (path : String)
deriving DecidableEq, Repr

/-- The class `_ArxivTarball`: a shard, identified by the path of its `.tar` file.
Python's `__eq__` compares `self.path`, which coincides with equality of
this one-field structure. -/
structure _ArxivTarball where
  path : String
deriving DecidableEq, Repr

/-- The property `_ArxivTarball.name`: `os.path.basename(self.path)`. -/
def _ArxivTarball.name (t : _ArxivTarball) : String := basename t.path

/-- The method `_ArxivTarball._get_unpacked_dir_path`:
`os.path.join(TMP_DIR, os.path.splitext(self.name)[0])`. -/
def _ArxivTarball.unpacked_dir_path (t : _ArxivTarball) : String :=
  posixJoin TMP_DIR (splitext t.name).1

/-- The filesystem state the shard lifecycle manipulates: the unpacked
directories currently in existence, each with the list of file names it
contains, plus a log of the tar paths for which the extraction subprocess
(`unpack_tar`) was actually invoked.  (The per-identifier files that
`GzipArxivEntry` writes directly under the temp root are plain files, not
directories, and are not tracked.) -/
structure FSState where
  dirs : List (String × List String)
  extractLog : List String
deriving DecidableEq, Repr

/-- Python `os.path.exists` restricted to the tracked directories. -/
def FSState.existsDir (s : FSState) (d : String) : Bool :=
  s.dirs.any (fun p => p.1 == d)

/-- File names listed inside a tracked directory (empty if absent). -/
def FSState.getFiles (s : FSState) (d : String) : List String :=
  ((s.dirs.find? (fun p => p.1 == d)).map Prod.snd).getD []

/-- Python `shutil.rmtree` and its effect on the tracked directories. -/
def FSState.removeDir (s : FSState) (d : String) : FSState :=
  { s with dirs := s.dirs.filter (fun p => p.1 != d) }

/-- The world outside the code's control: whether the `tar` subprocess
succeeds on a given tar file, and which member file names it extracts. -/
structure World where
  tarOk : String → Bool
  tarContents : String → List String

/-- The method `_ArxivTarball._is_unpacked`: `os.path.exists(self._get_unpacked_dir_path())`. -/
def _ArxivTarball.is_unpacked (t : _ArxivTarball) (s : FSState) : Bool :=
  s.existsDir t.unpacked_dir_path

/-- The method `_ArxivTarball._assert_unpacked`: `RuntimeError` when not unpacked. -/
def _ArxivTarball.assert_unpacked (t : _ArxivTarball) (s : FSState) : Option PyError :=
  if t.is_unpacked s then none else some .runtimeNotUnpacked

/-- The method `_ArxivTarball.unpack`: return immediately if the unpacked directory
exists; otherwise `os.makedirs` the directory and then run the extraction
subprocess.  A failing subprocess raises after the directory was already
created; whatever partial output `tar` wrote before failing is modelled as
an empty listing. -/
def _ArxivTarball.unpack (w : World) (t : _ArxivTarball) (s : FSState) :
    FSState × Option PyError :=
  if t.is_unpacked s then (s, none)
  else
    let d := t.unpacked_dir_path
    if w.tarOk t.path then
      ({ dirs := (d, w.tarContents t.path) :: s.dirs, extractLog := t.path :: s.extractLog },
       none)
    else
      ({ dirs := (d, []) :: s.dirs, extractLog := t.path :: s.extractLog },
       some .runtimeExtractionFailed)

/-- The method `_ArxivTarball.delete`: `shutil.rmtree(self._get_unpacked_dir_path())`;
`rmtree` raises `FileNotFoundError` when the directory does not exist. -/
def _ArxivTarball.delete (t : _ArxivTarball) (s : FSState) : FSState × Option PyError :=
  if t.is_unpacked s then (s.removeDir t.unpacked_dir_path, none)
  else (s, some .fileNotFoundError)

/-- Directory-listing names matched by the glob pattern built from the
identifier followed by a dot and a star
for a literal `entry_id` (the identifiers in play contain no glob
metacharacters): a name matches iff `entry_id` followed by a dot is a prefix
of it, except that glob hides names starting with a dot unless the pattern
itself does. -/
def globCandidates (names : List String) (entry_id : String) : List String :=
  names.filter (fun n =>
    (entry_id.data ++ ['.']).isPrefixOf n.data &&
    (entry_id.data.head? == some '.' || !(n.data.head? == some '.')))

/-- The body of `_ArxivTarball.load_entry` after `_assert_unpacked`:
a glob, under the unpacked directory, for the identifier followed by a dot
and a star over the directory listing, then
dispatch on the number of candidates and, for a single candidate, on
`os.path.splitext` of its full path. -/
def _ArxivTarball.load_entry_core (dirPath : String) (names : List String)
    (entry_id : String) : Except PyError (Option BaseArxivEntry) :=
  let candidate_paths := (globCandidates names entry_id).map (fun n => posixJoin dirPath n)
  if candidate_paths.length = 0 then .ok none
  else if candidate_paths.length > 1 then .error .runtimeAmbiguousEntry
  else
    match candidate_paths.head? with
    | none => .error .runtimeAmbiguousEntry
    | some path =>
      if (splitext path).2 = ".gz" then .ok (some (.gzip entry_id path))
      else .error .runtimeUnknownFormat

/-- The method `_ArxivTarball.load_entry`: assert the shard is unpacked, then search its
unpacked directory.  Reads the filesystem but never modifies it. -/
def _ArxivTarball.load_entry (t : _ArxivTarball) (s : FSState) (entry_id : String) :
    Except PyError (Option BaseArxivEntry) :=
  if t.is_unpacked s = false then .error .runtimeNotUnpacked
  else
    _ArxivTarball.load_entry_core t.unpacked_dir_path
      (s.getFiles t.unpacked_dir_path) entry_id

/-! ## Data source and working context -/

/-- The class `ArxivDataSource`: holds its manifest index.  (The constructor's
existence checks on the source directory and manifest file are configuration
validation outside these claims.) -/
structure ArxivDataSource where
  source_path : String
  _manifest : _ArxivDataSourceManifest
deriving DecidableEq, Repr

/-- The method `ArxivDataSource.get_tarball_for_entry`: resolve through the manifest and
wrap the path in a `_ArxivTarball`. -/
def ArxivDataSource.get_tarball_for_entry (ds : ArxivDataSource) (entry_id : String) :
    Except PyError _ArxivTarball :=
  (get_tarball_path_for_entry ds._manifest entry_id).map _ArxivTarball.mk

/-- The method `ArxivDataSource.load_entry` (the one-shot path): resolve, unpack, look
the entry up, raise `ValueError` if the shard reports not-found, otherwise
delete the unpacked directory and return the entry.  Each exception
propagates with the filesystem state as mutated so far. -/
def ArxivDataSource.load_entry (w : World) (ds : ArxivDataSource) (entry_id : String)
    (s : FSState) : FSState × Except PyError BaseArxivEntry :=
  match ds.get_tarball_for_entry entry_id with
  | .error e => (s, .error e)
  | .ok tarball =>
    match tarball.unpack w s with
    | (s1, some e) => (s1, .error e)
    | (s1, none) =>
      match tarball.load_entry s1 entry_id with
      | .error e => (s1, .error e)
      | .ok none => (s1, .error .valueErrorEntryMissing)
      | .ok (some entry) =>
        match tarball.delete s1 with
        | (s2, some e) => (s2, .error e)
        | (s2, none) => (s2, .ok entry)

/-- The class `ArxivWorkingContext`: the session's list of opened shards, in the order
they were opened. -/
structure ArxivWorkingContext where
  _open_tarballs : List _ArxivTarball
deriving DecidableEq, Repr

/-- The method `ArxivWorkingContext.load_entry`: resolve the shard; if it is not yet in
`_open_tarballs` (membership via `__eq__`, i.e. path equality), unpack it and
append it (an unpack exception propagates before the append); then delegate
to the shard's `load_entry`, raising `ValueError` on not-found. -/
def ArxivWorkingContext.load_entry (w : World) (ds : ArxivDataSource)
    (ctx : ArxivWorkingContext) (entry_id : String) (s : FSState) :
    ArxivWorkingContext × FSState × Except PyError BaseArxivEntry :=
  match ds.get_tarball_for_entry entry_id with
  | .error e => (ctx, s, .error e)
  | .ok tarball =>
    if tarball ∈ ctx._open_tarballs then
      match tarball.load_entry s entry_id with
      | .error e => (ctx, s, .error e)
      | .ok none => (ctx, s, .error .valueErrorEntryMissing)
      | .ok (some entry) => (ctx, s, .ok entry)
    else
      match tarball.unpack w s with
      | (s1, some e) => (ctx, s1, .error e)
      | (s1, none) =>
        let ctx1 : ArxivWorkingContext := ⟨ctx._open_tarballs ++ [tarball]⟩
        match tarball.load_entry s1 entry_id with
        | .error e => (ctx1, s1, .error e)
        | .ok none => (ctx1, s1, .error .valueErrorEntryMissing)
        | .ok (some entry) => (ctx1, s1, .ok entry)

/-- The method `ArxivWorkingContext.__exit__`: `for tarball in self._open_tarballs:
tarball.delete()` — sequential deletion in open order; an exception raised
by one `delete` propagates out of the loop at once, so later shards are not
attempted. -/
def exitContext : List _ArxivTarball → FSState → FSState × Option PyError
  | [], s => (s, none)
  | t :: rest, s =>
    match t.delete s with
    | (s1, none) => exitContext rest s1
    | (s1, some e) => (s1, some e)

/-! ## Concrete fixtures used by witnesses and counterexamples -/

/-- Manifest row: month `2101`, shard 1, items 1–10. -/
def row2101a : _ManifestEntry :=
  { num_items := 10, yymm := "2101", seq_num := 1,
    first_item := "2101.00001", last_item := "2101.00010" }

/-- Manifest row: month `2101`, shard 2, items 11–20. -/
def row2101b : _ManifestEntry :=
  { num_items := 10, yymm := "2101", seq_num := 2,
    first_item := "2101.00011", last_item := "2101.00020" }

/-- Manifest row: month `2102`, shard 1, items 1–3. -/
def row2102 : _ManifestEntry :=
  { num_items := 3, yymm := "2102", seq_num := 1,
    first_item := "2102.00001", last_item := "2102.00003" }

/-- Manifest row with malformed bounds for month `2104`. -/
def row2104bad : _ManifestEntry :=
  { num_items := 3, yymm := "2104", seq_num := 1,
    first_item := "oops", last_item := "2104.00003" }

/-- A small manifest: two shards for month `2101` (listed out of sequence
order, covering items 1–10 and 11–20), one shard for `2102`, and one row for
`2104` whose bounds are malformed. -/
def demoManifest : _ArxivDataSourceManifest :=
  { manifest_xml_path := "/data/arXiv_src_manifest.xml",
    files := [row2101b, row2101a, row2102, row2104bad] }

/-- A data source over `demoManifest`. -/
def demoDS : ArxivDataSource :=
  { source_path := "/data", _manifest := demoManifest }

/-- A world where extraction always succeeds and every shard holds the single
member `2101.00005.gz`. -/
def demoWorld : World :=
  { tarOk := fun _ => true, tarContents := fun _ => ["2101.00005.gz"] }

/-- A world where the extraction subprocess always fails. -/
def failWorld : World :=
  { tarOk := fun _ => false, tarContents := fun _ => [] }

/-- The first shard of month `2101`. -/
def tarA : _ArxivTarball := ⟨"/data/arXiv_src_2101_001.tar"⟩

/-- The second shard of month `2101`. -/
def tarB : _ArxivTarball := ⟨"/data/arXiv_src_2101_002.tar"⟩

/-- A filesystem state where only `tarA`'s unpacked directory exists. -/
def stateA : FSState := ⟨[("/tmp/arxiv/arXiv_src_2101_001", [])], []⟩

/-- A filesystem state where only `tarB`'s unpacked directory exists. -/
def stateB : FSState := ⟨[("/tmp/arxiv/arXiv_src_2101_002", [])], []⟩

/-- A filesystem state where both shards' unpacked directories exist. -/
def stateAB : FSState :=
  ⟨[("/tmp/arxiv/arXiv_src_2101_001", []), ("/tmp/arxiv/arXiv_src_2101_002", [])], []⟩

/-! ## Helper lemmas -/

lemma ne_of_digit_of_not {c x : Char} (hc : c.isDigit = true) (hx : x.isDigit = false) :
    c ≠ x := by
  intro hEq
  rw [hEq, hx] at hc
  exact Bool.false_ne_true hc

lemma not_ws_of_digit {c : Char} (hc : c.isDigit = true) : c.isWhitespace = false := by
  cases hw : c.isWhitespace
  · rfl
  · exfalso
    have hmem : ((c = ' ' ∨ c = '\t') ∨ c = '\r') ∨ c = '\n' := by
      simpa [Char.isWhitespace] using hw
    rcases hmem with ((rfl | rfl) | rfl) | rfl <;> exact absurd hc (by decide)

lemma splitOnChar_wfid (a b c d e f g h i : Char)
    (ha : a.isDigit = true) (hb : b.isDigit = true) (hc : c.isDigit = true)
    (hd : d.isDigit = true) (he : e.isDigit = true) (hf : f.isDigit = true)
    (hg : g.isDigit = true) (hh : h.isDigit = true) (hi : i.isDigit = true) :
    splitOnChar '.' [a, b, c, d, '.', e, f, g, h, i] = [[a, b, c, d], [e, f, g, h, i]] := by
  have na : a ≠ '.' := ne_of_digit_of_not ha (by decide)
  have nb : b ≠ '.' := ne_of_digit_of_not hb (by decide)
  have ncc : c ≠ '.' := ne_of_digit_of_not hc (by decide)
  have ndd : d ≠ '.' := ne_of_digit_of_not hd (by decide)
  have nee : e ≠ '.' := ne_of_digit_of_not he (by decide)
  have nff : f ≠ '.' := ne_of_digit_of_not hf (by decide)
  have ngg : g ≠ '.' := ne_of_digit_of_not hg (by decide)
  have nhh : h ≠ '.' := ne_of_digit_of_not hh (by decide)
  have nii : i ≠ '.' := ne_of_digit_of_not hi (by decide)
  simp [splitOnChar, na, nb, ncc, ndd, nee, nff, ngg, nhh, nii]

lemma pyIntChars_digits (e f g h i : Char)
    (he : e.isDigit = true) (hf : f.isDigit = true) (hg : g.isDigit = true)
    (hh : h.isDigit = true) (hi : i.isDigit = true) :
    pyIntChars [e, f, g, h, i] = some (digitsVal [e, f, g, h, i]) := by
  have wsE : e.isWhitespace = false := not_ws_of_digit he
  have wsI : i.isWhitespace = false := not_ws_of_digit hi
  have nplus : e ≠ '+' := ne_of_digit_of_not he (by decide)
  have nminus : e ≠ '-' := ne_of_digit_of_not he (by decide)
  have h1 : List.dropWhile Char.isWhitespace [e, f, g, h, i] = [e, f, g, h, i] := by
    rw [List.dropWhile_cons, if_neg (by simp [wsE])]
  have h3 : List.dropWhile Char.isWhitespace [i, h, g, f, e] = [i, h, g, f, e] := by
    rw [List.dropWhile_cons, if_neg (by simp [wsI])]
  simp [pyIntChars, h1, h3, nplus, nminus, he, hf, hg, hh, hi]

lemma get_tarball_reduce (m : _ArxivDataSourceManifest) (a b c d e f g h i : Char)
    (ha : a.isDigit = true) (hb : b.isDigit = true) (hc : c.isDigit = true)
    (hd : d.isDigit = true) (he : e.isDigit = true) (hf : f.isDigit = true)
    (hg : g.isDigit = true) (hh : h.isDigit = true) (hi : i.isDigit = true) :
    get_tarball_path_for_entry m ⟨[a, b, c, d, '.', e, f, g, h, i]⟩ =
      (if (monthEntries m ⟨[a, b, c, d]⟩).isEmpty then .error .arxivEntryNotFound
       else scanEntries (digitsVal [e, f, g, h, i]) (dirname m.manifest_xml_path)
              (monthEntries m ⟨[a, b, c, d]⟩)) := by
  have hre : reMatchEntryID [a, b, c, d, '.', e, f, g, h, i] = true := by
    simp [reMatchEntryID, ha, hb, hc, hd, he, hf, hg, hh, hi]
  have hsplit := splitOnChar_wfid a b c d e f g h i ha hb hc hd he hf hg hh hi
  have hint := pyIntChars_digits e f g h i he hf hg hh hi
  simp only [get_tarball_path_for_entry, String.data]
  rw [hre, hsplit]
  simp [hint]

lemma scanEntries_first_match (num : Int) (dir : String) (rows : List _ManifestEntry)
    (k : Nat) (rk : _ManifestEntry) (hk : rows[k]? = some rk)
    (hbef : ∀ r ∈ rows.take k, ∃ fj lj, parseItemNum r.first_item = some fj ∧
      parseItemNum r.last_item = some lj ∧ ¬(fj ≤ num ∧ num ≤ lj))
    (fk lk : Int) (hfk : parseItemNum rk.first_item = some fk)
    (hlk : parseItemNum rk.last_item = some lk) (h1 : fk ≤ num) (h2 : num ≤ lk) :
    scanEntries num dir rows = .ok (posixJoin dir rk.filename) := by
  induction rows generalizing k with
  | nil => simp at hk
  | cons r0 rest ih =>
    cases k with
    | zero =>
      simp only [List.getElem?_cons_zero, Option.some.injEq] at hk
      subst hk
      simp [scanEntries, hfk, hlk, h1, h2]
    | succ k =>
      simp only [List.getElem?_cons_succ] at hk
      obtain ⟨f0, l0, hf0, hl0, hn0⟩ :=
        hbef r0 (by simp [List.take_succ_cons])
      have hrest := ih k hk (fun r hr => hbef r (by simp [List.take_succ_cons, hr]))
      simp [scanEntries, hf0, hl0, hn0, hrest]

lemma scanEntries_notFound_iff (num : Int) (dir : String) (rows : List _ManifestEntry) :
    scanEntries num dir rows = .error .arxivEntryNotFound ↔
      ∀ r ∈ rows, ∃ f l, parseItemNum r.first_item = some f ∧
        parseItemNum r.last_item = some l ∧ ¬(f ≤ num ∧ num ≤ l) := by
  induction rows with
  | nil => simp [scanEntries]
  | cons r0 rest ih =>
    cases hf0 : parseItemNum r0.first_item with
    | none =>
      simp only [scanEntries, hf0]
      constructor
      · intro hcontra; exact absurd hcontra (by simp)
      · intro hall
        obtain ⟨f0, l0, hf0', _, _⟩ := hall r0 (by simp)
        rw [hf0] at hf0'; exact absurd hf0' (by simp)
    | some f0 =>
      cases hl0 : parseItemNum r0.last_item with
      | none =>
        simp only [scanEntries, hf0, hl0]
        constructor
        · intro hcontra; exact absurd hcontra (by simp)
        · intro hall
          obtain ⟨f0', l0, _, hl0', _⟩ := hall r0 (by simp)
          rw [hl0] at hl0'; exact absurd hl0' (by simp)
      | some l0 =>
        by_cases hin : f0 ≤ num ∧ num ≤ l0
        · simp only [scanEntries, hf0, hl0, if_pos hin]
          constructor
          · intro hcontra; exact absurd hcontra (by simp)
          · intro hall
            obtain ⟨f0', l0', hf0', hl0', hn⟩ := hall r0 (by simp)
            rw [hf0] at hf0'; rw [hl0] at hl0'
            cases hf0'; cases hl0'
            exact absurd hin hn
        · simp only [scanEntries, hf0, hl0, if_neg hin]
          rw [ih]
          constructor
          · intro hall r hr
            rcases List.mem_cons.mp hr with rfl | hr'
            · exact ⟨f0, l0, hf0, hl0, hin⟩
            · exact hall r hr'
          · intro hall r hr
            exact hall r (List.mem_cons_of_mem _ hr)

lemma scanEntries_malformed (num : Int) (dir : String) (rows : List _ManifestEntry)
    (k : Nat) (rk : _ManifestEntry) (hk : rows[k]? = some rk)
    (hbef : ∀ r ∈ rows.take k, ∃ fj lj, parseItemNum r.first_item = some fj ∧
      parseItemNum r.last_item = some lj ∧ ¬(fj ≤ num ∧ num ≤ lj))
    (hmal : parseItemNum rk.first_item = none ∨ parseItemNum rk.last_item = none) :
    scanEntries num dir rows = .error .arxivUnsupportedEntryID := by
  induction rows generalizing k with
  | nil => simp at hk
  | cons r0 rest ih =>
    cases k with
    | zero =>
      simp only [List.getElem?_cons_zero, Option.some.injEq] at hk
      subst hk
      rcases hmal with hm | hm
      · simp [scanEntries, hm]
      · cases hf : parseItemNum r0.first_item <;> simp [scanEntries, hf, hm]
    | succ k =>
      simp only [List.getElem?_cons_succ] at hk
      obtain ⟨f0, l0, hf0, hl0, hn0⟩ :=
        hbef r0 (by simp [List.take_succ_cons])
      have hrest := ih k hk (fun r hr => hbef r (by simp [List.take_succ_cons, hr]))
      simp [scanEntries, hf0, hl0, hn0, hrest]

/-! ## Claim theorems: manifest resolution -/

/-- C1: for every well-formed identifier `YYMM.NNNNN` (nine digit characters
around a dot) whose numeric suffix lies in the inclusive range of some entry
of its month's manifest list, resolution returns the path of the first such
entry — the month's rows being scanned in ascending `seq_num` order (the
list is sorted, second conjunct) — built as
`arXiv_src_YYMM_SSS.tar` (sequence number zero-padded to three digits) joined to the manifest document's own
directory.  Rows before the first match are required to have parseable
bounds, as the scan fails on a malformed row instead of skipping it. -/
theorem resolve_returns_first_matching_shard
    (m : _ArxivDataSourceManifest) (a b c d e f g h i : Char)
    (hdig : [a, b, c, d, e, f, g, h, i].all Char.isDigit = true)
    (k : Nat) (rk : _ManifestEntry)
    (hk : (monthEntries m ⟨[a, b, c, d]⟩)[k]? = some rk)
    (hbef : ∀ r ∈ (monthEntries m ⟨[a, b, c, d]⟩).take k, ∃ fj lj,
      parseItemNum r.first_item = some fj ∧ parseItemNum r.last_item = some lj ∧
      ¬(fj ≤ (digitsVal [e, f, g, h, i] : Int) ∧ (digitsVal [e, f, g, h, i] : Int) ≤ lj))
    (fk lk : Int) (hfk : parseItemNum rk.first_item = some fk)
    (hlk : parseItemNum rk.last_item = some lk)
    (h1 : fk ≤ (digitsVal [e, f, g, h, i] : Int))
    (h2 : (digitsVal [e, f, g, h, i] : Int) ≤ lk) :
    get_tarball_path_for_entry m ⟨[a, b, c, d, '.', e, f, g, h, i]⟩ =
      .ok (posixJoin (dirname m.manifest_xml_path) rk.filename) ∧
    (monthEntries m ⟨[a, b, c, d]⟩).Sorted (fun x y => x.seq_num ≤ y.seq_num) := by
  simp only [List.all_cons, List.all_nil, Bool.and_eq_true, Bool.and_true] at hdig
  obtain ⟨ha, hb, hc, hd, he, hf, hg, hh, hi⟩ := hdig
  constructor
  · rw [get_tarball_reduce m a b c d e f g h i ha hb hc hd he hf hg hh hi]
    have hne : ¬ (monthEntries m ⟨[a, b, c, d]⟩).isEmpty = true := by
      intro hemp
      rw [List.isEmpty_iff] at hemp
      rw [hemp] at hk
      simp at hk
    rw [if_neg hne]
    exact scanEntries_first_match _ _ _ k rk hk hbef fk lk hfk hlk h1 h2
  · haveI : IsTotal _ManifestEntry (fun x y => x.seq_num ≤ y.seq_num) :=
      ⟨fun x y => Int.le_total _ _⟩
    haveI : IsTrans _ManifestEntry (fun x y => x.seq_num ≤ y.seq_num) :=
      ⟨fun _ _ _ hxy hyz => le_trans hxy hyz⟩
    exact List.sorted_insertionSort _ _

/-- C1 witness: `2101.00015` resolves to the second shard of month `2101`
(covering items 11–20) in `demoManifest`, even though that row appears first
in document order. -/
theorem resolve_returns_first_matching_shard_witness :
    get_tarball_path_for_entry demoManifest "2101.00015" =
      .ok "/data/arXiv_src_2101_002.tar" := by
  have h := resolve_returns_first_matching_shard demoManifest
    '2' '1' '0' '1' '0' '0' '0' '1' '5' (by decide) 1 row2101b
    (by decide)
    (by
      intro r hr
      have hr' : r = row2101a := by
        have htake : (monthEntries demoManifest ⟨['2', '1', '0', '1']⟩).take 1 =
            [row2101a] := by decide
        rw [htake] at hr
        simpa using hr
      subst hr'
      exact ⟨1, 10, by decide, by decide, by decide⟩)
    11 20 (by decide) (by decide) (by decide) (by decide)
  exact h.1

/-- C2 (code bug): the code validates identifiers with
`re.match(r"\d{4}\.\d{5}", ...)`, which is anchored only at the start, so
`"2101.000011"` — which does NOT match the spec's full-match contract —
is not rejected: its suffix parses as `11` and resolution succeeds. -/
theorem resolve_accepts_six_digit_suffix :
    specFullMatchEntryID "2101.000011".data = false ∧
    get_tarball_path_for_entry demoManifest "2101.000011" =
      .ok "/data/arXiv_src_2101_002.tar" :=
  ⟨by decide, by rfl⟩

/-- C8: for a well-formed identifier, resolution fails with
`ArxivEntryNotFound` exactly when the identifier's month has no manifest
rows, or it has rows, each row's bounds parse, and no row's inclusive range
contains the numeric suffix. -/
theorem resolve_not_found_iff
    (m : _ArxivDataSourceManifest) (a b c d e f g h i : Char)
    (hdig : [a, b, c, d, e, f, g, h, i].all Char.isDigit = true) :
    get_tarball_path_for_entry m ⟨[a, b, c, d, '.', e, f, g, h, i]⟩ =
        .error .arxivEntryNotFound ↔
      (monthEntries m ⟨[a, b, c, d]⟩ = [] ∨
       (monthEntries m ⟨[a, b, c, d]⟩ ≠ [] ∧
        ∀ r ∈ monthEntries m ⟨[a, b, c, d]⟩, ∃ fj lj,
          parseItemNum r.first_item = some fj ∧ parseItemNum r.last_item = some lj ∧
          ¬(fj ≤ (digitsVal [e, f, g, h, i] : Int) ∧
            (digitsVal [e, f, g, h, i] : Int) ≤ lj))) := by
  simp only [List.all_cons, List.all_nil, Bool.and_eq_true, Bool.and_true] at hdig
  obtain ⟨ha, hb, hc, hd, he, hf, hg, hh, hi⟩ := hdig
  rw [get_tarball_reduce m a b c d e f g h i ha hb hc hd he hf hg hh hi]
  by_cases hemp : (monthEntries m ⟨[a, b, c, d]⟩).isEmpty = true
  · rw [if_pos hemp]
    rw [List.isEmpty_iff] at hemp
    simp [hemp]
  · rw [if_neg hemp]
    rw [List.isEmpty_iff] at hemp
    rw [scanEntries_notFound_iff]
    constructor
    · intro hall; exact Or.inr ⟨hemp, hall⟩
    · rintro (hnil | ⟨_, hall⟩)
      · exact absurd hnil hemp
      · exact hall

/-- C8 witness: `2101.00099` is outside both ranges of month `2101`, and
`2103.00001` names a month with no rows; both fail with entry-not-found. -/
theorem resolve_not_found_iff_witness :
    get_tarball_path_for_entry demoManifest "2101.00099" =
        .error .arxivEntryNotFound ∧
    get_tarball_path_for_entry demoManifest "2103.00001" =
        .error .arxivEntryNotFound := by
  constructor
  · refine (resolve_not_found_iff demoManifest
      '2' '1' '0' '1' '0' '0' '0' '9' '9' (by decide)).mpr (Or.inr ⟨by decide, ?_⟩)
    intro r hr
    have hrows : monthEntries demoManifest ⟨['2', '1', '0', '1']⟩ =
        [row2101a, row2101b] := by decide
    rw [hrows] at hr
    rcases List.mem_cons.mp hr with rfl | hr'
    · exact ⟨1, 10, by decide, by decide, by decide⟩
    · rcases List.mem_cons.mp hr' with rfl | hr''
      · exact ⟨11, 20, by decide, by decide, by decide⟩
      · exact absurd hr'' (List.not_mem_nil _)
  · exact (resolve_not_found_iff demoManifest
      '2' '1' '0' '3' '0' '0' '0' '0' '1' (by decide)).mpr (Or.inl (by decide))

/-- C9: if the range scan reaches a manifest row with malformed
`first_item`/`last_item` bounds (every earlier row of the month parsed and
failed to contain the suffix), resolution fails with
`ArxivUnsupportedEntryID` instead of skipping the row. -/
theorem resolve_malformed_bounds_unsupported
    (m : _ArxivDataSourceManifest) (a b c d e f g h i : Char)
    (hdig : [a, b, c, d, e, f, g, h, i].all Char.isDigit = true)
    (k : Nat) (rk : _ManifestEntry)
    (hk : (monthEntries m ⟨[a, b, c, d]⟩)[k]? = some rk)
    (hbef : ∀ r ∈ (monthEntries m ⟨[a, b, c, d]⟩).take k, ∃ fj lj,
      parseItemNum r.first_item = some fj ∧ parseItemNum r.last_item = some lj ∧
      ¬(fj ≤ (digitsVal [e, f, g, h, i] : Int) ∧ (digitsVal [e, f, g, h, i] : Int) ≤ lj))
    (hmal : parseItemNum rk.first_item = none ∨ parseItemNum rk.last_item = none) :
    get_tarball_path_for_entry m ⟨[a, b, c, d, '.', e, f, g, h, i]⟩ =
      .error .arxivUnsupportedEntryID := by
  simp only [List.all_cons, List.all_nil, Bool.and_eq_true, Bool.and_true] at hdig
  obtain ⟨ha, hb, hc, hd, he, hf, hg, hh, hi⟩ := hdig
  rw [get_tarball_reduce m a b c d e f g h i ha hb hc hd he hf hg hh hi]
  have hne : ¬ (monthEntries m ⟨[a, b, c, d]⟩).isEmpty = true := by
    intro hemp
    rw [List.isEmpty_iff] at hemp
    rw [hemp] at hk
    simp at hk
  rw [if_neg hne]
  exact scanEntries_malformed _ _ _ k rk hk hbef hmal

/-- C9 witness: month `2104` of `demoManifest` has a row whose `first_item`
is `"oops"`; looking up `2104.00001` fails with the unsupported-identifier
error. -/
theorem resolve_malformed_bounds_unsupported_witness :
    get_tarball_path_for_entry demoManifest "2104.00001" =
      .error .arxivUnsupportedEntryID := by
  exact resolve_malformed_bounds_unsupported demoManifest
    '2' '1' '0' '4' '0' '0' '0' '0' '1' (by decide) 0 row2104bad
    (by decide)
    (fun r hr => absurd hr (by simp))
    (Or.inl (by decide))

/-! ## Shard lifecycle lemmas and claims -/

lemma is_unpacked_cons (t : _ArxivTarball) (fs : List String)
    (rest : List (String × List String)) (log : List String) :
    t.is_unpacked ⟨(t.unpacked_dir_path, fs) :: rest, log⟩ = true := by
  simp [_ArxivTarball.is_unpacked, FSState.existsDir]

lemma unpack_of_not_unpacked_ok (w : World) (t : _ArxivTarball) (s : FSState)
    (h : t.is_unpacked s = false) (hok : w.tarOk t.path = true) :
    t.unpack w s =
      (⟨(t.unpacked_dir_path, w.tarContents t.path) :: s.dirs, t.path :: s.extractLog⟩,
       none) := by
  simp [_ArxivTarball.unpack, h, hok]

lemma unpack_of_not_unpacked_fail (w : World) (t : _ArxivTarball) (s : FSState)
    (h : t.is_unpacked s = false) (hfail : w.tarOk t.path = false) :
    t.unpack w s =
      (⟨(t.unpacked_dir_path, []) :: s.dirs, t.path :: s.extractLog⟩,
       some .runtimeExtractionFailed) := by
  simp [_ArxivTarball.unpack, h, hfail]

lemma unpack_of_unpacked (w : World) (t : _ArxivTarball) (s : FSState)
    (h : t.is_unpacked s = true) : t.unpack w s = (s, none) := by
  simp [_ArxivTarball.unpack, h]

/-- C4: `unpack()` is idempotent.  If the target directory already exists the
call is a no-op; a second `unpack()` right after a first one is always a
no-op on the state produced by the first (so two calls produce the same
on-disk state as one); and across the two calls the extraction subprocess
runs at most once for this shard. -/
theorem unpack_idempotent (w : World) (t : _ArxivTarball) (s : FSState) :
    (t.is_unpacked s = true → t.unpack w s = (s, none)) ∧
    t.unpack w (t.unpack w s).1 = ((t.unpack w s).1, none) ∧
    (t.path ∉ s.extractLog →
      (t.unpack w (t.unpack w s).1).1.extractLog.count t.path ≤ 1) := by
  by_cases hu : t.is_unpacked s = true
  · have h1 := unpack_of_unpacked w t s hu
    refine ⟨fun _ => h1, ?_, ?_⟩
    · rw [h1]
      exact unpack_of_unpacked w t s hu
    · intro hnot
      rw [h1, unpack_of_unpacked w t s hu]
      simp [List.count_eq_zero.mpr hnot]
  · have hu' : t.is_unpacked s = false := by simpa using hu
    by_cases hok : w.tarOk t.path = true
    · have h1 := unpack_of_not_unpacked_ok w t s hu' hok
      have h2 := unpack_of_unpacked w t _
        (is_unpacked_cons t (w.tarContents t.path) s.dirs (t.path :: s.extractLog))
      refine ⟨fun habs => absurd habs hu, ?_, ?_⟩
      · rw [h1]
        exact h2
      · intro hnot
        rw [h1, h2]
        simp [List.count_cons, List.count_eq_zero.mpr hnot]
    · have hfail : w.tarOk t.path = false := by simpa using hok
      have h1 := unpack_of_not_unpacked_fail w t s hu' hfail
      have h2 := unpack_of_unpacked w t _
        (is_unpacked_cons t [] s.dirs (t.path :: s.extractLog))
      refine ⟨fun habs => absurd habs hu, ?_, ?_⟩
      · rw [h1]
        exact h2
      · intro hnot
        rw [h1, h2]
        simp [List.count_cons, List.count_eq_zero.mpr hnot]

/-- C4 witness: on a state where `tarA`'s directory already exists, `unpack`
is a no-op, a repeated `unpack` changes nothing, and no extraction runs. -/
theorem unpack_idempotent_witness :
    _ArxivTarball.unpack demoWorld tarA stateA = (stateA, none) ∧
    _ArxivTarball.unpack demoWorld tarA
        (_ArxivTarball.unpack demoWorld tarA stateA).1 =
      ((_ArxivTarball.unpack demoWorld tarA stateA).1, none) ∧
    (_ArxivTarball.unpack demoWorld tarA
        (_ArxivTarball.unpack demoWorld tarA stateA).1).1.extractLog.count tarA.path ≤ 1 := by
  have h := unpack_idempotent demoWorld tarA stateA
  exact ⟨h.1 (by decide), h.2.1, h.2.2 (by decide)⟩

/-- C10: the unpacked state is exactly "the deterministic directory exists",
and `unpack()` creates that directory before running the extraction
subprocess; so when extraction fails, the error propagates but the directory
persists, every later `unpack()` on the shard returns immediately reporting
success, and `_assert_unpacked` passes over the incomplete directory. -/
theorem unpack_failure_leaves_unpacked_state (w : World) (t : _ArxivTarball) (s : FSState)
    (hnot : t.is_unpacked s = false) (hfail : w.tarOk t.path = false) :
    (∀ s2 : FSState, t.is_unpacked s2 = s2.existsDir t.unpacked_dir_path) ∧
    (t.unpack w s).2 = some .runtimeExtractionFailed ∧
    t.is_unpacked (t.unpack w s).1 = true ∧
    (∀ w2 : World, t.unpack w2 (t.unpack w s).1 = ((t.unpack w s).1, none)) ∧
    t.assert_unpacked (t.unpack w s).1 = none := by
  have h1 := unpack_of_not_unpacked_fail w t s hnot hfail
  have hup : t.is_unpacked (t.unpack w s).1 = true := by
    rw [h1]
    exact is_unpacked_cons t [] s.dirs (t.path :: s.extractLog)
  refine ⟨fun _ => rfl, by rw [h1], hup, ?_, ?_⟩
  · intro w2
    exact unpack_of_unpacked w2 t _ hup
  · simp [_ArxivTarball.assert_unpacked, hup]

/-- C10 witness: with a failing extraction world, unpacking `tarA` from an
empty filesystem raises the extraction error yet leaves the shard counting
as unpacked, and a retry is a successful no-op. -/
theorem unpack_failure_leaves_unpacked_state_witness :
    (_ArxivTarball.unpack failWorld tarA ⟨[], []⟩).2 = some .runtimeExtractionFailed ∧
    _ArxivTarball.is_unpacked tarA (_ArxivTarball.unpack failWorld tarA ⟨[], []⟩).1 = true ∧
    _ArxivTarball.assert_unpacked tarA (_ArxivTarball.unpack failWorld tarA ⟨[], []⟩).1 =
      none := by
  have h := unpack_failure_leaves_unpacked_state failWorld tarA ⟨[], []⟩ (by decide) (by decide)
  exact ⟨h.2.1, h.2.2.1, h.2.2.2.2⟩

/-! ## Working-context release (`__exit__`) lemmas and claims -/

lemma existsDir_removeDir_self (s : FSState) (d : String) :
    (s.removeDir d).existsDir d = false := by
  simp only [FSState.removeDir, FSState.existsDir]
  rw [Bool.eq_false_iff]
  intro hcontra
  rw [List.any_eq_true] at hcontra
  obtain ⟨p, hp, hpd⟩ := hcontra
  rw [List.mem_filter] at hp
  rw [beq_iff_eq] at hpd
  rw [bne_iff_ne] at hp
  exact hp.2 hpd

lemma any_key_filter_ne (l : List (String × List String)) (d d' : String) (h : d ≠ d') :
    (l.filter (fun p => p.1 != d')).any (fun p => p.1 == d) =
      l.any (fun p => p.1 == d) := by
  induction l with
  | nil => rfl
  | cons p rest ih =>
    by_cases hp : p.1 = d
    · have hne : (p.1 != d') = true := by
        rw [bne_iff_ne]; rw [hp]; exact h
      have hpd : (p.1 == d) = true := by rw [beq_iff_eq]; exact hp
      rw [List.filter_cons, if_pos hne, List.any_cons, List.any_cons, hpd]
      simp
    · by_cases hp' : p.1 = d'
      · have hne : (p.1 != d') = false := by simp [hp']
        have hpd : (p.1 == d) = false := by simp [hp]
        simp [List.filter_cons, List.any_cons, hne, hpd, ih]
      · have hne : (p.1 != d') = true := by rw [bne_iff_ne]; exact hp'
        have hpd : (p.1 == d) = false := by simp [hp]
        simp [List.filter_cons, List.any_cons, hne, hpd, ih]

lemma existsDir_removeDir_ne (s : FSState) (d d' : String) (h : d ≠ d') :
    (s.removeDir d').existsDir d = s.existsDir d := by
  simp only [FSState.removeDir, FSState.existsDir]
  exact any_key_filter_ne s.dirs d d' h

lemma delete_of_unpacked (t : _ArxivTarball) (s : FSState)
    (h : t.is_unpacked s = true) :
    t.delete s = (s.removeDir t.unpacked_dir_path, none) := by
  simp [_ArxivTarball.delete, h]

lemma delete_of_not_unpacked (t : _ArxivTarball) (s : FSState)
    (h : t.is_unpacked s = false) :
    t.delete s = (s, some .fileNotFoundError) := by
  simp [_ArxivTarball.delete, h]

lemma exitContext_preserves_absent (ts : List _ArxivTarball) (s : FSState) (d : String)
    (h : s.existsDir d = false) : (exitContext ts s).1.existsDir d = false := by
  induction ts generalizing s with
  | nil => exact h
  | cons t rest ih =>
    by_cases hu : t.is_unpacked s = true
    · rw [exitContext, delete_of_unpacked t s hu]
      apply ih
      by_cases hd : d = t.unpacked_dir_path
      · subst hd; exact existsDir_removeDir_self s _
      · rw [existsDir_removeDir_ne s d _ hd]; exact h
    · have hu' : t.is_unpacked s = false := by simpa using hu
      rw [exitContext, delete_of_not_unpacked t s hu']
      exact h

/-- C3 counterexample: a context that opened `tarA` then `tarB`, released in
a state where `tarA`'s directory is already gone (so deleting it raises):
the release raises `FileNotFoundError` and `tarB`'s directory is NOT
deleted, contradicting "a failure deleting one shard does not prevent
attempting deletion of the remaining opened shards". -/
theorem exit_stops_after_failed_delete_cex :
    (exitContext [tarA, tarB] stateB).2 = some .fileNotFoundError ∧
    (exitContext [tarA, tarB] stateB).1.existsDir tarB.unpacked_dir_path = true := by
  constructor
  · rfl
  · rfl

/-- C3 (amended): release deletes the unpacked directory of every opened
shard in the order they were opened — on the happy path (all directories
present, distinct) every directory is removed and no error is raised, and
this still holds when an intervening lookup failed, since release runs over
whatever was recorded as opened — but when deleting one shard fails, the
exception propagates at once and the remaining shards are not attempted. -/
theorem exit_deletes_in_order_or_aborts
    (ts : List _ArxivTarball) (s : FSState) (t : _ArxivTarball)
    (rest : List _ArxivTarball) (s2 : FSState) :
    ((∀ u ∈ ts, s.existsDir u.unpacked_dir_path = true) →
     (ts.map _ArxivTarball.unpacked_dir_path).Nodup →
     (exitContext ts s).2 = none ∧
     (∀ u ∈ ts, (exitContext ts s).1.existsDir u.unpacked_dir_path = false)) ∧
    (t.is_unpacked s2 = false →
      exitContext (t :: rest) s2 = (s2, some .fileNotFoundError)) := by
  constructor
  · induction ts generalizing s with
    | nil =>
      intro _ _
      exact ⟨rfl, by simp⟩
    | cons t0 ts' ih =>
      intro hall hnd
      have hu : t0.is_unpacked s = true := hall t0 (by simp)
      rw [List.map_cons, List.nodup_cons] at hnd
      have hstep : exitContext (t0 :: ts') s =
          exitContext ts' (s.removeDir t0.unpacked_dir_path) := by
        rw [exitContext, delete_of_unpacked t0 s hu]
      have hall' : ∀ u ∈ ts',
          (s.removeDir t0.unpacked_dir_path).existsDir u.unpacked_dir_path = true := by
        intro u hu'
        have hne : u.unpacked_dir_path ≠ t0.unpacked_dir_path := by
          intro hEq
          exact hnd.1 (hEq ▸ List.mem_map_of_mem _ hu')
        rw [existsDir_removeDir_ne _ _ _ hne]
        exact hall u (List.mem_cons_of_mem _ hu')
      obtain ⟨herr, hgone⟩ := ih (s.removeDir t0.unpacked_dir_path) hall' hnd.2
      refine ⟨by rw [hstep]; exact herr, ?_⟩
      intro u hu'
      rcases List.mem_cons.mp hu' with rfl | hmem
      · rw [hstep]
        exact exitContext_preserves_absent ts' _ _ (existsDir_removeDir_self s _)
      · rw [hstep]
        exact hgone u hmem
  · intro h
    rw [exitContext, delete_of_not_unpacked t s2 h]

/-- C3 witness: releasing a context that opened `tarA` then `tarB` in a
state where both directories exist removes both and raises nothing; and a
release hitting a missing directory on its first shard raises at once. -/
theorem exit_deletes_in_order_or_aborts_witness :
    ((exitContext [tarA, tarB] stateAB).2 = none ∧
     (exitContext [tarA, tarB] stateAB).1.existsDir tarA.unpacked_dir_path = false ∧
     (exitContext [tarA, tarB] stateAB).1.existsDir tarB.unpacked_dir_path = false) ∧
    exitContext [tarA] stateB = (stateB, some .fileNotFoundError) := by
  have h := exit_deletes_in_order_or_aborts [tarA, tarB] stateAB tarA [] stateB
  obtain ⟨hok, hgone⟩ := h.1 (by decide) (by decide)
  exact ⟨⟨hok, hgone tarA (by simp), hgone tarB (by simp)⟩, h.2 (by decide)⟩

/-! ## Working-context lookup claims -/

lemma tarball_path_mem (tb : _ArxivTarball) (l : List _ArxivTarball) :
    tb.path ∈ l.map _ArxivTarball.path ↔ tb ∈ l := by
  constructor
  · intro hmem
    rw [List.mem_map] at hmem
    obtain ⟨u, hu, hup⟩ := hmem
    have hEq : u = tb := by
      cases u; cases tb; simpa using hup
    exact hEq ▸ hu
  · intro hmem
    exact List.mem_map_of_mem _ hmem

/-- C5: within one working-context session a shard is never unpacked twice.
If the resolved shard is already recorded as opened (membership is by path
equality), the lookup leaves both the context and the filesystem untouched,
reusing the existing extraction; otherwise the filesystem advances by one
`unpack` and, when that unpack succeeds, the shard is appended to the opened
list (an unpack failure propagates before the append).  Consequently the
opened list never records the same path twice. -/
theorem context_unpacks_each_shard_once (w : World) (ds : ArxivDataSource)
    (ctx : ArxivWorkingContext) (entry_id : String) (s : FSState) (tb : _ArxivTarball)
    (hres : ds.get_tarball_for_entry entry_id = .ok tb) :
    (tb ∈ ctx._open_tarballs →
      (ctx.load_entry w ds entry_id s).1 = ctx ∧
      (ctx.load_entry w ds entry_id s).2.1 = s) ∧
    (tb ∉ ctx._open_tarballs →
      (ctx.load_entry w ds entry_id s).2.1 = (tb.unpack w s).1 ∧
      ((tb.unpack w s).2 = none →
        (ctx.load_entry w ds entry_id s).1._open_tarballs =
          ctx._open_tarballs ++ [tb]) ∧
      ((tb.unpack w s).2 ≠ none → (ctx.load_entry w ds entry_id s).1 = ctx)) ∧
    ((ctx._open_tarballs.map _ArxivTarball.path).Nodup →
      ((ctx.load_entry w ds entry_id s).1._open_tarballs.map _ArxivTarball.path).Nodup) := by
  by_cases hmem : tb ∈ ctx._open_tarballs
  · have hstep : ctx.load_entry w ds entry_id s =
        (match tb.load_entry s entry_id with
         | .error e => (ctx, s, .error e)
         | .ok none => (ctx, s, .error .valueErrorEntryMissing)
         | .ok (some entry) => (ctx, s, .ok entry)) := by
      simp [ArxivWorkingContext.load_entry, hres, hmem]
    refine ⟨fun _ => ?_, fun habs => absurd hmem habs, fun hnd => ?_⟩
    · rw [hstep]
      cases hload : tb.load_entry s entry_id with
      | error e => simp
      | ok oe => cases oe <;> simp
    · rw [hstep]
      cases hload : tb.load_entry s entry_id with
      | error e => simpa using hnd
      | ok oe => cases oe <;> simpa using hnd
  · rcases hunp : tb.unpack w s with ⟨s1, err⟩
    cases err with
    | some e =>
      have hstep : ctx.load_entry w ds entry_id s = (ctx, s1, .error e) := by
        simp [ArxivWorkingContext.load_entry, hres, hmem, hunp]
      refine ⟨fun habs => absurd habs hmem, fun _ => ?_, fun hnd => by rw [hstep]; exact hnd⟩
      refine ⟨by rw [hstep], fun hnone => ?_, fun _ => by rw [hstep]⟩
      exact absurd hnone (by simp)
    | none =>
      have hstep : ctx.load_entry w ds entry_id s =
          (match tb.load_entry s1 entry_id with
           | .error e => (⟨ctx._open_tarballs ++ [tb]⟩, s1, .error e)
           | .ok none => (⟨ctx._open_tarballs ++ [tb]⟩, s1, .error .valueErrorEntryMissing)
           | .ok (some entry) => (⟨ctx._open_tarballs ++ [tb]⟩, s1, .ok entry)) := by
        simp [ArxivWorkingContext.load_entry, hres, hmem, hunp]
      have hopen : (ctx.load_entry w ds entry_id s).1._open_tarballs =
          ctx._open_tarballs ++ [tb] := by
        rw [hstep]
        cases hload : tb.load_entry s1 entry_id with
        | error e => simp
        | ok oe => cases oe <;> simp
      refine ⟨fun habs => absurd habs hmem, fun _ => ?_, fun hnd => ?_⟩
      · refine ⟨?_, fun _ => hopen, fun habs => absurd rfl habs⟩
        rw [hstep]
        cases hload : tb.load_entry s1 entry_id with
        | error e => simp
        | ok oe => cases oe <;> simp
      · rw [hopen, List.map_append, List.nodup_append]
        refine ⟨hnd, by simp, ?_⟩
        intro x hx hx'
        simp only [List.map_cons, List.map_nil, List.mem_singleton] at hx'
        subst hx'
        exact absurd ((tarball_path_mem tb _).mp hx) hmem

/-- C5 witness: a fresh context looking up `2101.00005` records exactly the
resolved shard as opened. -/
theorem context_unpacks_each_shard_once_witness :
    (ArxivWorkingContext.load_entry demoWorld demoDS ⟨[]⟩ "2101.00005"
        ⟨[], []⟩).1._open_tarballs = [tarA] := by
  have h := context_unpacks_each_shard_once demoWorld demoDS ⟨[]⟩ "2101.00005"
    ⟨[], []⟩ tarA (by rfl)
  exact (h.2.1 (by simp)).2.1 (by rfl)

/-! ## Shard entry-lookup claims -/

/-- C6 counterexample: the code's search criterion is the glob `{id}.*`, not
"name without extension equals the identifier".  The file
`2101.00001.tar.gz` has stem `2101.00001.tar` (so the claim predicts zero
matches and a not-found result), yet the code matches it and returns a Gzip
entry for it. -/
theorem load_entry_stem_criterion_cex :
    (["2101.00001.tar.gz"].filter
        (fun n => (splitext n).1 == "2101.00001")) = [] ∧
    _ArxivTarball.load_entry_core "/tmp/arxiv/arXiv_src_2101_001"
        ["2101.00001.tar.gz"] "2101.00001" =
      .ok (some (.gzip "2101.00001"
        "/tmp/arxiv/arXiv_src_2101_001/2101.00001.tar.gz")) :=
  ⟨by decide, by rfl⟩

/-- C6 (amended): `load_entry` searches the unpacked directory with the glob
pattern `{identifier}.*` — names consisting of the identifier, a dot, and
any (possibly multi-extension) suffix — and dispatches on the match count:
zero matches returns a non-error not-found result; more than one match is a
fatal ambiguous-entry error; exactly one match builds a Gzip entry when the
matched path's last extension is `.gz` and otherwise raises a fatal
unknown-entry-format error. -/
theorem load_entry_dispatch_by_glob
    (dirPath : String) (names : List String) (entry_id : String) :
    (globCandidates names entry_id = [] →
      _ArxivTarball.load_entry_core dirPath names entry_id = .ok none) ∧
    (∀ n, globCandidates names entry_id = [n] →
      ((splitext (posixJoin dirPath n)).2 = ".gz" →
        _ArxivTarball.load_entry_core dirPath names entry_id =
          .ok (some (.gzip entry_id (posixJoin dirPath n)))) ∧
      ((splitext (posixJoin dirPath n)).2 ≠ ".gz" →
        _ArxivTarball.load_entry_core dirPath names entry_id =
          .error .runtimeUnknownFormat)) ∧
    (2 ≤ (globCandidates names entry_id).length →
      _ArxivTarball.load_entry_core dirPath names entry_id =
        .error .runtimeAmbiguousEntry) := by
  cases hc : globCandidates names entry_id with
  | nil =>
    refine ⟨fun _ => ?_, fun n hn => absurd hn (by simp), fun habs => by simp at habs⟩
    simp [_ArxivTarball.load_entry_core, hc]
  | cons x xs =>
    cases xs with
    | nil =>
      refine ⟨fun habs => absurd habs (by simp), fun n hn => ?_, fun habs => by simp at habs⟩
      have hx : x = n := by simpa using hn
      subst hx
      constructor
      · intro hext
        simp [_ArxivTarball.load_entry_core, hc, hext]
      · intro hext
        simp [_ArxivTarball.load_entry_core, hc, hext]
    | cons y ys =>
      refine ⟨fun habs => absurd habs (by simp), fun n hn => absurd hn (by simp), fun _ => ?_⟩
      simp [_ArxivTarball.load_entry_core, hc]

/-- C6 witness: a directory holding exactly `2101.00001.gz` yields a Gzip
entry for `2101.00001`; one holding `2101.00001.pdf` raises the
unknown-format error; one holding both raises the ambiguous-entry error;
an empty one reports not-found. -/
theorem load_entry_dispatch_by_glob_witness :
    _ArxivTarball.load_entry_core "/tmp/arxiv/arXiv_src_2101_001"
        ["2101.00001.gz"] "2101.00001" =
      .ok (some (.gzip "2101.00001" "/tmp/arxiv/arXiv_src_2101_001/2101.00001.gz")) ∧
    _ArxivTarball.load_entry_core "/tmp/arxiv/arXiv_src_2101_001"
        ["2101.00001.pdf"] "2101.00001" = .error .runtimeUnknownFormat ∧
    _ArxivTarball.load_entry_core "/tmp/arxiv/arXiv_src_2101_001"
        ["2101.00001.gz", "2101.00001.pdf"] "2101.00001" =
      .error .runtimeAmbiguousEntry ∧
    _ArxivTarball.load_entry_core "/tmp/arxiv/arXiv_src_2101_001"
        [] "2101.00001" = .ok none := by
  refine ⟨?_, ?_, ?_, ?_⟩
  · exact ((load_entry_dispatch_by_glob "/tmp/arxiv/arXiv_src_2101_001"
      ["2101.00001.gz"] "2101.00001").2.1 "2101.00001.gz" (by decide)).1 (by decide)
  · exact ((load_entry_dispatch_by_glob "/tmp/arxiv/arXiv_src_2101_001"
      ["2101.00001.pdf"] "2101.00001").2.1 "2101.00001.pdf" (by decide)).2 (by decide)
  · exact (load_entry_dispatch_by_glob "/tmp/arxiv/arXiv_src_2101_001"
      ["2101.00001.gz", "2101.00001.pdf"] "2101.00001").2.2 (by decide)
  · exact (load_entry_dispatch_by_glob "/tmp/arxiv/arXiv_src_2101_001"
      [] "2101.00001").1 (by decide)

/-! ## Data-source one-shot claims -/

/-- C7: the one-shot `ArxivDataSource.load_entry` resolves the shard,
unpacks it, looks the entry up, and on the success path deletes the shard's
unpacked directory before returning the entry (so in the final state the
resolved shard's directory no longer exists); when the shard reports
not-found, it raises the "entry does not exist" `ValueError`. -/
theorem datasource_load_entry_deletes_on_success (w : World) (ds : ArxivDataSource)
    (entry_id : String) (s : FSState) :
    (∀ s2 entry, ds.load_entry w entry_id s = (s2, .ok entry) →
      ∃ tb, ds.get_tarball_for_entry entry_id = .ok tb ∧
        s2.existsDir tb.unpacked_dir_path = false) ∧
    (∀ tb s1, ds.get_tarball_for_entry entry_id = .ok tb →
      tb.unpack w s = (s1, none) →
      tb.load_entry s1 entry_id = .ok none →
      ds.load_entry w entry_id s = (s1, .error .valueErrorEntryMissing)) := by
  constructor
  · intro s2 entry hrun
    cases hres : ds.get_tarball_for_entry entry_id with
    | error e =>
      simp only [ArxivDataSource.load_entry, hres] at hrun
      exact absurd hrun (by simp)
    | ok tb =>
      refine ⟨tb, rfl, ?_⟩
      simp only [ArxivDataSource.load_entry, hres] at hrun
      rcases hunp : tb.unpack w s with ⟨s1, err⟩
      simp only [hunp] at hrun
      cases err with
      | some e => exact absurd hrun (by simp)
      | none =>
        cases hload : tb.load_entry s1 entry_id with
        | error e =>
          simp only [hload] at hrun
          exact absurd hrun (by simp)
        | ok oe =>
          cases oe with
          | none =>
            simp only [hload] at hrun
            exact absurd hrun (by simp)
          | some entry' =>
            simp only [hload] at hrun
            have hup : tb.is_unpacked s1 = true := by
              by_contra habs
              have habs' : tb.is_unpacked s1 = false := by simpa using habs
              rw [_ArxivTarball.load_entry, habs'] at hload
              exact absurd hload (by simp)
            rw [delete_of_unpacked tb s1 hup] at hrun
            simp only [] at hrun
            have hs2 : s2 = s1.removeDir tb.unpacked_dir_path := by
              have := congrArg Prod.fst hrun
              simpa using this.symm
            rw [hs2]
            exact existsDir_removeDir_self s1 _
  · intro tb s1 hres hunp hload
    simp only [ArxivDataSource.load_entry, hres, hunp, hload]

/-- C7 witness: loading `2101.00005` one-shot from `demoDS` in `demoWorld`
succeeds, and the resolved shard's unpacked directory is absent from the
final state; a world whose shards contain no matching member makes the same
call fail with the entry-missing `ValueError`. -/
theorem datasource_load_entry_deletes_on_success_witness :
    (∃ tb, ArxivDataSource.get_tarball_for_entry demoDS "2101.00005" = .ok tb ∧
      FSState.existsDir
        (ArxivDataSource.load_entry demoWorld demoDS "2101.00005" ⟨[], []⟩).1
        tb.unpacked_dir_path = false) ∧
    ArxivDataSource.load_entry ⟨fun _ => true, fun _ => []⟩ demoDS "2101.00005" ⟨[], []⟩ =
      (⟨[("/tmp/arxiv/arXiv_src_2101_001", [])], ["/data/arXiv_src_2101_001.tar"]⟩,
       .error .valueErrorEntryMissing) := by
  constructor
  · exact (datasource_load_entry_deletes_on_success demoWorld demoDS
      "2101.00005" ⟨[], []⟩).1
      ⟨[], ["/data/arXiv_src_2101_001.tar"]⟩
      (.gzip "2101.00005" "/tmp/arxiv/arXiv_src_2101_001/2101.00005.gz")
      (by rfl)
  · exact (datasource_load_entry_deletes_on_success ⟨fun _ => true, fun _ => []⟩
      demoDS "2101.00005" ⟨[], []⟩).2 tarA
      ⟨[("/tmp/arxiv/arXiv_src_2101_001", [])], ["/data/arXiv_src_2101_001.tar"]⟩
      (by rfl) (by rfl) (by rfl)
